import Mathlib

/-
Verification of the vibebar tray synchronization and activation engine
(src/main.rs) against its natural-language specification.

The Rust source is shallowly embedded below.  External collaborators
(the freedesktop icon-theme lookup, the filesystem, the PNG decoder,
the D-Bus transport, the system_tray client's live item map) appear as
oracle fields of explicit environment records; everything that is code
of this repository is translated function-by-function.
-/

set_option maxHeartbeats 1000000

namespace Vibebar

/-- One raw pixmap as delivered by the tray protocol
(`system_tray::item::IconPixmap`): a width, a height and a byte buffer
in ARGB order.  Bytes are modelled as `Nat`. -/
structure IconPixmap where
  width : Nat
  height : Nat
  pixels : List Nat
deriving DecidableEq, Repr

/-- The raster image handed to the renderer
(`iced::widget::image::Handle::from_rgba(width, height, rgba)`). -/
structure RasterImage where
  width : Nat
  height : Nat
  rgba : List Nat
deriving DecidableEq, Repr

/-- A resolved icon: either raster data or an SVG file path
(mirrors `enum IconHandle { Raster(..), Svg(..) }` in main.rs). -/
inductive IconHandle
  | Raster (img : RasterImage)
  | Svg (path : String)
deriving DecidableEq, Repr

/-- The icon-relevant fields captured into a tray event
(mirrors `struct IconData` in main.rs). -/
structure IconData where
  pixmap : Option (List IconPixmap)
  icon_name : Option String
  icon_theme_path : Option String
deriving DecidableEq, Repr

/-- The ARGB-to-RGBA byte permutation performed inside `pixmap_to_handle`:
`for chunk in pixmap.pixels.chunks(4) { if chunk.len() == 4 { [a,r,g,b] ->
push [r,g,b,a] } }`.  An incomplete trailing chunk is dropped. -/
def argbToRgba : List Nat → List Nat
  | a :: r :: g :: b :: rest => r :: g :: b :: a :: argbToRgba rest
  | _ => []

/-- Rust's `Iterator::max_by_key` on a list: returns the element with the
maximal key, and when several elements are equally maximal it returns the
LAST one (the fold replaces the current best whenever the new key is
greater or equal).  `none` on an empty list. -/
def maxByKeyLast (f : α → Nat) : List α → Option α
  | [] => none
  | x :: xs => some (xs.foldl (fun best y => if f best ≤ f y then y else best) x)

/-- Embedding of `pixmap_to_handle` in main.rs: pick the pixmap maximising
`width * height` via `max_by_key`, then convert its ARGB buffer to RGBA. -/
def pixmap_to_handle (pixmaps : List IconPixmap) : Option RasterImage :=
  (maxByKeyLast (fun p => p.width * p.height) pixmaps).map
    (fun p => { width := p.width, height := p.height, rgba := argbToRgba p.pixels })

/-- External collaborators of the icon resolver, as read-only oracles:
the freedesktop themed-icon lookup (`freedesktop_icons::lookup(name)
.with_size(128).with_cache().find()`), filesystem existence probing
(`PathBuf::exists`), extension extraction (`PathBuf::extension`), and
PNG decoding (`std::fs::read` + `image::load_from_memory` + `to_rgba8`). -/
structure FsEnv where
  themeLookup : String → Option String
  pathExists : String → Bool
  extOf : String → Option String
  decodePng : String → Option RasterImage

/-- The six fallback candidate paths probed by `lookup_icon` when the
themed lookup misses and an `icon_theme_path` hint is present, in source
order. -/
def candidates (tp name : String) : List String :=
  [ tp ++ "/" ++ name ++ ".svg"
  , tp ++ "/" ++ name ++ ".png"
  , tp ++ "/hicolor/scalable/apps/" ++ name ++ ".svg"
  , tp ++ "/hicolor/256x256/apps/" ++ name ++ ".png"
  , tp ++ "/hicolor/128x128/apps/" ++ name ++ ".png"
  , tp ++ "/hicolor/64x64/apps/" ++ name ++ ".png" ]

/-- The `for c in candidates { if p.exists() { return Some(p) } }` loop in
`lookup_icon`: the first candidate that exists on disk, if any. -/
def firstExisting (env : FsEnv) : List String → Option String
  | [] => none
  | c :: cs => if env.pathExists c then some c else firstExisting env cs

/-- Embedding of `load_icon_file` in main.rs: dispatch on the lowercased
file extension; `.svg` becomes a vector handle holding the path, `.png`
is decoded to RGBA raster data, anything else (including a missing
extension or a failed decode) yields `none`. -/
def load_icon_file (env : FsEnv) (path : String) : Option IconHandle :=
  match env.extOf path with
  | none => none
  | some ext =>
    if ext.toLower = "svg" then some (IconHandle.Svg path)
    else if ext.toLower = "png" then (env.decodePng path).map IconHandle.Raster
    else none

/-- Embedding of `lookup_icon` in main.rs: first the themed lookup, then
(on a miss, when a theme-path hint exists) the six-candidate filesystem
probe; the resulting path, if any, is loaded by `load_icon_file`. -/
def lookup_icon (env : FsEnv) (name : String) (theme_path : Option String) :
    Option IconHandle :=
  let path :=
    match env.themeLookup name with
    | some p => some p
    | none =>
      match theme_path with
      | some tp => firstExisting env (candidates tp name)
      | none => none
  match path with
  | some p => load_icon_file env p
  | none => none

/-- The `icon_name` fallback arm of `resolve_icon`: if an icon name is
present and non-empty, perform the themed lookup, otherwise no icon. -/
def resolveByName (env : FsEnv) (icon : IconData) : Option IconHandle :=
  match icon.icon_name with
  | some name => if name.isEmpty then none else lookup_icon env name icon.icon_theme_path
  | none => none

/-- Embedding of `resolve_icon` in main.rs: prefer a present, non-empty
pixmap list (converted by `pixmap_to_handle`); otherwise fall back to the
icon-name lookup; otherwise `none`. -/
def resolve_icon (env : FsEnv) (icon : IconData) : Option IconHandle :=
  match icon.pixmap with
  | some pixmaps =>
    if pixmaps.isEmpty then resolveByName env icon
    else (pixmap_to_handle pixmaps).map IconHandle.Raster
  | none => resolveByName env icon

/-- Rust's `str::split_once('/')` over a character list: splits at the
first slash, returning the parts before and after it, or `none` when no
slash occurs. -/
def splitOnceSlash : List Char → Option (List Char × List Char)
  | [] => none
  | c :: cs =>
    if c = '/' then some ([], cs)
    else (splitOnceSlash cs).map (fun dp => (c :: dp.1, dp.2))

/-- Embedding of `parse_sni_address` in main.rs: split the full address on
the first `/` into destination and path, re-prefixing the path with `/`;
with no slash the whole string is the destination and the path defaults
to `/StatusNotifierItem`. -/
def parse_sni_address (address : List Char) : List Char × List Char :=
  match splitOnceSlash address with
  | none => (address, ("/StatusNotifierItem").toList)
  | some dp => (dp.1, '/' :: dp.2)

/-- A catalog entry (mirrors `struct TrayItem` in main.rs): the resolved
icon, if any, and the UI-local hover flag. -/
structure TrayItem where
  icon : Option IconHandle
  hovered : Bool
deriving DecidableEq, Repr

/-- The item catalog keyed by address (the `tray_items: HashMap<String,
TrayItem>` field of `State`). -/
def Catalog := String → Option TrayItem

/-- The tray-event messages produced by the subscription and consumed by
`update` (mirrors `enum TrayEvent` in main.rs). -/
inductive TrayEvent
  | Add (address : String) (icon : IconData)
  | Update (address : String) (icon : IconData)
  | Remove (address : String)
  | Tick
deriving DecidableEq, Repr

/-- The shared body of the `TrayEvent::Add | TrayEvent::Update` arm of
`update` in main.rs: resolve the icon, read the prior entry's hover flag
(defaulting to `false`), and insert the rebuilt entry. -/
def insertResolved (env : FsEnv) (cat : Catalog) (address : String)
    (icon : IconData) : Catalog :=
  let icon_handle := resolve_icon env icon
  let hovered := ((cat address).map (fun i => i.hovered)).getD false
  fun a => if a = address then some { icon := icon_handle, hovered := hovered } else cat a

/-- Embedding of the `Message::Tray` arm of `update` in main.rs, acting on
the `tray_items` catalog: Add and Update both rebuild the entry in place,
Remove deletes it, Tick is a no-op. -/
def update (env : FsEnv) (cat : Catalog) : TrayEvent → Catalog
  | TrayEvent.Add address icon => insertResolved env cat address icon
  | TrayEvent.Update address icon => insertResolved env cat address icon
  | TrayEvent.Remove address => fun a => if a = address then none else cat a
  | TrayEvent.Tick => cat

/-- Mouse click kinds (mirrors `enum ClickType` in main.rs). -/
inductive ClickType
  | Left
  | Right
  | Middle
deriving DecidableEq, Repr

/-- The fields of a live `StatusNotifierItem` read by this engine from the
system_tray client's item map. -/
structure SniItem where
  icon_pixmap : Option (List IconPixmap)
  icon_name : Option String
  icon_theme_path : Option String
  item_is_menu : Bool
deriving DecidableEq, Repr

/-- A broadcast update payload (`system_tray::client::UpdateEvent`),
abstracted to the two cases the engine distinguishes: an icon change
carrying a name and a pixmap list, or any other payload. -/
inductive UpdateEvent
  | Icon (icon_name : Option String) (icon_pixmap : Option (List IconPixmap))
  | Other
deriving DecidableEq, Repr

/-- A broadcast tray-service event (`system_tray::client::Event`). -/
inductive Event
  | Add (address : String) (item : SniItem)
  | Update (address : String) (payload : UpdateEvent)
  | Remove (address : String)
deriving DecidableEq, Repr

/-- What the Connected state's `tokio::select!` resolved to on this step:
either the broadcast receiver yielded (`some e` for `Ok(e)`, `none` for a
closed/errored channel), or an activation request arrived from the UI. -/
inductive ConnInput
  | TrayEv (recv : Option Event)
  | Activation (address : String) (click : ClickType) (x y : Int)

/-- The tray state machine's state (mirrors `enum TrayState` in main.rs,
with the connection handle and the receivers abstracted away: they carry
no data the step logic inspects). -/
inductive TrayState
  | Disconnected
  | SendingInitial (initial : List (String × IconData)) (index : Nat)
  | Connected

/-- One remote invocation attempted by the activation invoker
(`sni_activate`, `sni_context_menu`, `sni_secondary_activate`). -/
inductive Invocation
  | Activate (address : String) (x y : Int)
  | ContextMenu (address : String) (x y : Int)
  | SecondaryActivate (address : String) (x y : Int)
deriving DecidableEq, Repr

/-- The external world as seen by one step of `tray_subscription`:
`connect` is the outcome of `Client::new()` in Disconnected (a snapshot
list on success, `none` on failure); `connInput` is what the Connected
select resolved to; `items` is the client's live item map consulted for
`item_is_menu`; `activateFails` tells whether the `sni_activate` call
returns an error this step. -/
structure StepEnv where
  connect : Option (List (String × IconData))
  connInput : ConnInput
  items : String → Option SniItem
  activateFails : Bool

/-- The observable output of one step of the unfold in
`tray_subscription`: the emitted message, the successor state, the
seconds slept (`tokio::time::sleep`), and the remote invocations
attempted, in order. -/
structure StepOut where
  msg : TrayEvent
  next : TrayState
  sleepSecs : Nat
  calls : List Invocation

/-- The invocation sequence of the activation arm of the Connected state:
Left consults the live `item_is_menu` flag (absent address counts as
`false`) and either opens the context menu directly or tries Activate
with a one-shot ContextMenu fallback on failure; Right calls ContextMenu;
Middle calls SecondaryActivate. -/
def clickCalls (items : String → Option SniItem) (activateFails : Bool)
    (address : String) (click : ClickType) (x y : Int) : List Invocation :=
  match click with
  | ClickType.Left =>
    let item_is_menu := ((items address).map (fun it => it.item_is_menu)).getD false
    if item_is_menu then [Invocation.ContextMenu address x y]
    else if activateFails then
      [Invocation.Activate address x y, Invocation.ContextMenu address x y]
    else [Invocation.Activate address x y]
  | ClickType.Right => [Invocation.ContextMenu address x y]
  | ClickType.Middle => [Invocation.SecondaryActivate address x y]

/-- Embedding of one step of the `stream::unfold` loop in
`tray_subscription`.  Disconnected: a successful connect snapshots the
catalog and enters SendingInitial with index 0 (emitting a tick); a
failure emits a tick, sleeps 5 seconds and stays Disconnected.
SendingInitial: while `index < initial.len()` emit one Add for
`initial[index]` and advance; once exhausted emit a tick and enter
Connected.  Connected: a broadcast event is translated (Add and icon
Updates forwarded, other Updates dropped as ticks, Remove forwarded, a
receive error falls back to Disconnected with a tick); an activation
request performs its invocations and emits a tick. -/
def step (s : TrayState) (env : StepEnv) : StepOut :=
  match s with
  | TrayState.Disconnected =>
    match env.connect with
    | some initial =>
      { msg := TrayEvent.Tick, next := TrayState.SendingInitial initial 0
      , sleepSecs := 0, calls := [] }
    | none =>
      { msg := TrayEvent.Tick, next := TrayState.Disconnected
      , sleepSecs := 5, calls := [] }
  | TrayState.SendingInitial initial index =>
    if h : index < initial.length then
      { msg := TrayEvent.Add (initial.get ⟨index, h⟩).1 (initial.get ⟨index, h⟩).2
      , next := TrayState.SendingInitial initial (index + 1)
      , sleepSecs := 0, calls := [] }
    else
      { msg := TrayEvent.Tick, next := TrayState.Connected
      , sleepSecs := 0, calls := [] }
  | TrayState.Connected =>
    match env.connInput with
    | ConnInput.TrayEv none =>
      { msg := TrayEvent.Tick, next := TrayState.Disconnected
      , sleepSecs := 0, calls := [] }
    | ConnInput.TrayEv (some e) =>
      match e with
      | Event.Add address item =>
        { msg := TrayEvent.Add address
            { pixmap := item.icon_pixmap, icon_name := item.icon_name
            , icon_theme_path := item.icon_theme_path }
        , next := TrayState.Connected, sleepSecs := 0, calls := [] }
      | Event.Update address (UpdateEvent.Icon icon_name icon_pixmap) =>
        { msg := TrayEvent.Update address
            { pixmap := icon_pixmap, icon_name := icon_name
            , icon_theme_path := none }
        , next := TrayState.Connected, sleepSecs := 0, calls := [] }
      | Event.Update _ UpdateEvent.Other =>
        { msg := TrayEvent.Tick, next := TrayState.Connected
        , sleepSecs := 0, calls := [] }
      | Event.Remove address =>
        { msg := TrayEvent.Remove address, next := TrayState.Connected
        , sleepSecs := 0, calls := [] }
    | ConnInput.Activation address click x y =>
      { msg := TrayEvent.Tick, next := TrayState.Connected
      , sleepSecs := 0
      , calls := clickCalls env.items env.activateFails address click x y }

/-- Iterate `step` for `n` steps from state `s`, feeding the environment
sequence `envs`, and collect the emitted messages in order. -/
def runSteps (envs : Nat → StepEnv) (s : TrayState) : Nat → List TrayEvent × TrayState
  | 0 => ([], s)
  | n + 1 =>
    let p := runSteps envs s n
    let out := step p.2 (envs n)
    (p.1 ++ [out.msg], out.next)

/-- Flatten a list of ARGB quadruples into the byte buffer layout the
tray protocol delivers. -/
def flatARGB : List (Nat × Nat × Nat × Nat) → List Nat
  | [] => []
  | (a, r, g, b) :: ps => a :: r :: g :: b :: flatARGB ps

/-- Flatten a list of ARGB quadruples into the RGBA byte layout the
renderer expects. -/
def flatRGBA : List (Nat × Nat × Nat × Nat) → List Nat
  | [] => []
  | (a, r, g, b) :: ps => r :: g :: b :: a :: flatRGBA ps

theorem argbToRgba_length : ∀ l : List Nat, (argbToRgba l).length = 4 * (l.length / 4)
  | [] => by simp [argbToRgba]
  | [_] => by simp [argbToRgba]
  | [_, _] => by simp [argbToRgba]
  | [_, _, _] => by simp [argbToRgba]
  | _ :: _ :: _ :: _ :: rest => by
    have ih := argbToRgba_length rest
    simp only [argbToRgba, List.length_cons, ih]
    omega

theorem argbToRgba_short (tail : List Nat) (h : tail.length < 4) : argbToRgba tail = [] := by
  rcases tail with _ | ⟨a, _ | ⟨b, _ | ⟨c, _ | ⟨d, rest⟩⟩⟩⟩
  · rfl
  · rfl
  · rfl
  · rfl
  · simp only [List.length_cons] at h; omega

theorem argbToRgba_flat (ps : List (Nat × Nat × Nat × Nat)) (tail : List Nat)
    (h : tail.length < 4) : argbToRgba (flatARGB ps ++ tail) = flatRGBA ps := by
  induction ps with
  | nil => simpa [flatARGB, flatRGBA] using argbToRgba_short tail h
  | cons p ps ih =>
    obtain ⟨a, r, g, b⟩ := p
    simp [flatARGB, flatRGBA, argbToRgba, ih]

/-- C7: the ARGB-to-RGBA conversion maps each complete 4-byte input pixel
`[A,R,G,B]` to output bytes `[R,G,B,A]` in order, the output length is
always a multiple of 4, and a trailing incomplete input pixel is
dropped. -/
theorem argb_to_rgba_spec :
    (∀ l : List Nat, (argbToRgba l).length % 4 = 0) ∧
    (∀ (ps : List (Nat × Nat × Nat × Nat)) (tail : List Nat), tail.length < 4 →
      argbToRgba (flatARGB ps ++ tail) = flatRGBA ps) := by
  constructor
  · intro l
    rw [argbToRgba_length]
    omega
  · exact fun ps tail h => argbToRgba_flat ps tail h

/-- Witness for C7 at a concrete buffer: one full pixel plus a 3-byte
incomplete trailer. -/
theorem argb_to_rgba_spec_witness :
    ([9, 9, 9].length < 4) ∧ argbToRgba (flatARGB [(1, 2, 3, 4)] ++ [9, 9, 9]) = flatRGBA [(1, 2, 3, 4)] :=
  ⟨by decide, argb_to_rgba_spec.2 [(1, 2, 3, 4)] [9, 9, 9] (by decide)⟩

theorem splitOnceSlash_of_not_mem : ∀ a : List Char, '/' ∉ a → splitOnceSlash a = none := by
  intro a
  induction a with
  | nil => intro _; rfl
  | cons c cs ih =>
    intro h
    have hc : ¬ c = '/' := fun hc => h (hc ▸ List.mem_cons_self c cs)
    have hcs : '/' ∉ cs := fun hm => h (List.mem_cons_of_mem c hm)
    simp [splitOnceSlash, hc, ih hcs]

theorem splitOnceSlash_append (d p : List Char) (hd : '/' ∉ d) :
    splitOnceSlash (d ++ '/' :: p) = some (d, p) := by
  induction d with
  | nil => simp [splitOnceSlash]
  | cons c cs ih =>
    have hc : ¬ c = '/' := fun hc => hd (hc ▸ List.mem_cons_self c cs)
    have hcs : '/' ∉ cs := fun hm => hd (List.mem_cons_of_mem c hm)
    simp [splitOnceSlash, hc, ih hcs]

/-- C8: address parsing splits on the first slash into destination and
path, re-prefixing the path with a slash; with no slash the path
defaults to `/StatusNotifierItem`; in particular on the two concrete
example addresses of the spec. -/
theorem parse_sni_address_spec :
    (∀ d p : List Char, '/' ∉ d → parse_sni_address (d ++ '/' :: p) = (d, '/' :: p)) ∧
    (∀ a : List Char, '/' ∉ a →
      parse_sni_address a = (a, ("/StatusNotifierItem").toList)) ∧
    parse_sni_address (("1.58").toList) = (("1.58").toList, ("/StatusNotifierItem").toList) ∧
    parse_sni_address (("1.58/org/blueman/sni").toList)
      = (("1.58").toList, ("/org/blueman/sni").toList) := by
  refine ⟨?_, ?_, ?_, ?_⟩
  · intro d p hd
    simp [parse_sni_address, splitOnceSlash_append d p hd]
  · intro a ha
    simp [parse_sni_address, splitOnceSlash_of_not_mem a ha]
  · decide
  · decide

/-- Witness for C8: the general split law applied at a concrete address. -/
theorem parse_sni_address_spec_witness :
    ('/' ∉ ['a', 'b']) ∧ parse_sni_address (['a', 'b'] ++ '/' :: ['c']) = (['a', 'b'], '/' :: ['c']) :=
  ⟨by decide, parse_sni_address_spec.1 ['a', 'b'] ['c'] (by decide)⟩

/-- A step environment in which the connect attempt fails and nothing
else is available. -/
def envFail : StepEnv :=
  { connect := none, connInput := ConnInput.TrayEv none
  , items := fun _ => none, activateFails := false }

/-- C4: a failed connection attempt in the Disconnected state emits
exactly one tick event, sleeps the fixed 5-second backoff, performs no
invocation, and remains in Disconnected (in particular it never
transitions directly to Connected or SendingInitial). -/
theorem disconnected_failure_step (env : StepEnv) (h : env.connect = none) :
    step TrayState.Disconnected env =
      { msg := TrayEvent.Tick, next := TrayState.Disconnected
      , sleepSecs := 5, calls := [] } := by
  simp [step, h]

/-- Witness for C4 at the concrete failing environment. -/
theorem disconnected_failure_step_witness :
    envFail.connect = none ∧
    step TrayState.Disconnected envFail =
      { msg := TrayEvent.Tick, next := TrayState.Disconnected
      , sleepSecs := 5, calls := [] } :=
  ⟨rfl, disconnected_failure_step envFail rfl⟩

/-- A step environment carrying a Primary (left-click) activation
request for address "a" with no live item entry and a succeeding
Activate call. -/
def envClick : StepEnv :=
  { connect := none, connInput := ConnInput.Activation "a" ClickType.Left 1 2
  , items := fun _ => none, activateFails := false }

/-- C2: handling a Primary activation in the Connected state emits one
tick and stays Connected; if the live `item_is_menu` flag is true the
calls are exactly one ContextMenu (and no Activate); otherwise the first
call is Activate, followed by exactly one ContextMenu precisely when
Activate fails — never more than two attempts. -/
theorem primary_activation_calls (env : StepEnv) (address : String) (x y : Int)
    (h : env.connInput = ConnInput.Activation address ClickType.Left x y) :
    (step TrayState.Connected env).msg = TrayEvent.Tick ∧
    (step TrayState.Connected env).next = TrayState.Connected ∧
    (step TrayState.Connected env).calls.length ≤ 2 ∧
    (((env.items address).map (fun it => it.item_is_menu)).getD false = true →
      (step TrayState.Connected env).calls = [Invocation.ContextMenu address x y]) ∧
    (((env.items address).map (fun it => it.item_is_menu)).getD false = false →
      (step TrayState.Connected env).calls.head? = some (Invocation.Activate address x y) ∧
      (env.activateFails = true →
        (step TrayState.Connected env).calls =
          [Invocation.Activate address x y, Invocation.ContextMenu address x y]) ∧
      (env.activateFails = false →
        (step TrayState.Connected env).calls = [Invocation.Activate address x y])) := by
  cases hm : ((env.items address).map (fun it => it.item_is_menu)).getD false <;>
    cases hf : env.activateFails <;>
      simp [step, h, clickCalls, hm, hf]

/-- Witness for C2 at the concrete activation environment. -/
theorem primary_activation_calls_witness :
    envClick.connInput = ConnInput.Activation "a" ClickType.Left 1 2 ∧
    ((step TrayState.Connected envClick).msg = TrayEvent.Tick ∧
     (step TrayState.Connected envClick).next = TrayState.Connected ∧
     (step TrayState.Connected envClick).calls.length ≤ 2 ∧
     (((envClick.items "a").map (fun it => it.item_is_menu)).getD false = true →
       (step TrayState.Connected envClick).calls = [Invocation.ContextMenu "a" 1 2]) ∧
     (((envClick.items "a").map (fun it => it.item_is_menu)).getD false = false →
       (step TrayState.Connected envClick).calls.head? = some (Invocation.Activate "a" 1 2) ∧
       (envClick.activateFails = true →
         (step TrayState.Connected envClick).calls =
           [Invocation.Activate "a" 1 2, Invocation.ContextMenu "a" 1 2]) ∧
       (envClick.activateFails = false →
         (step TrayState.Connected envClick).calls = [Invocation.Activate "a" 1 2]))) :=
  ⟨rfl, primary_activation_calls envClick "a" 1 2 rfl⟩

/-- An icon-resolution environment in which the theme lookup misses, no
path exists and nothing decodes. -/
def envNoFs : FsEnv :=
  { themeLookup := fun _ => none, pathExists := fun _ => false
  , extOf := fun _ => none, decodePng := fun _ => none }

/-- C5: the Icon Resolver's strict priority order — a present, non-empty
pixmap list always resolves through `pixmap_to_handle` (the icon name is
never consulted); otherwise a present, non-empty icon name goes through
the themed lookup; otherwise the result is `none`. -/
theorem resolve_icon_priority :
    (∀ (env : FsEnv) (ps : List IconPixmap) (nm : Option String) (tp : Option String),
      ps ≠ [] →
      resolve_icon env { pixmap := some ps, icon_name := nm, icon_theme_path := tp }
        = (pixmap_to_handle ps).map IconHandle.Raster) ∧
    (∀ (env : FsEnv) (pm : Option (List IconPixmap)) (name : String) (tp : Option String),
      (pm = none ∨ pm = some []) → name.isEmpty = false →
      resolve_icon env { pixmap := pm, icon_name := some name, icon_theme_path := tp }
        = lookup_icon env name tp) ∧
    (∀ (env : FsEnv) (pm : Option (List IconPixmap)) (tp : Option String),
      (pm = none ∨ pm = some []) →
      resolve_icon env { pixmap := pm, icon_name := none, icon_theme_path := tp } = none ∧
      resolve_icon env { pixmap := pm, icon_name := some "", icon_theme_path := tp } = none) := by
  refine ⟨?_, ?_, ?_⟩
  · intro env ps nm tp hps
    cases ps with
    | nil => exact absurd rfl hps
    | cons p ps => simp [resolve_icon]
  · intro env pm name tp hpm hname
    rcases hpm with h | h <;> subst h <;> simp [resolve_icon, resolveByName, hname]
  · intro env pm tp hpm
    have hempty : ("" : String).isEmpty = true := by decide
    rcases hpm with h | h <;> subst h <;>
      exact ⟨by simp [resolve_icon, resolveByName],
             by simp [resolve_icon, resolveByName, hempty]⟩

/-- Witness for C5: all three priority arms at concrete descriptors. -/
theorem resolve_icon_priority_witness :
    (resolve_icon envNoFs
        { pixmap := some [⟨1, 1, [0, 0, 0, 0]⟩], icon_name := some "x", icon_theme_path := none }
      = (pixmap_to_handle [⟨1, 1, [0, 0, 0, 0]⟩]).map IconHandle.Raster) ∧
    (resolve_icon envNoFs { pixmap := some [], icon_name := some "x", icon_theme_path := none }
      = lookup_icon envNoFs "x" none) ∧
    resolve_icon envNoFs { pixmap := none, icon_name := none, icon_theme_path := none } = none :=
  ⟨resolve_icon_priority.1 envNoFs [⟨1, 1, [0, 0, 0, 0]⟩] (some "x") none (by decide)
  , resolve_icon_priority.2.1 envNoFs (some []) "x" none (Or.inr rfl) rfl
  , (resolve_icon_priority.2.2 envNoFs none none (Or.inl rfl)).1⟩

theorem firstExisting_eq_find (env : FsEnv) :
    ∀ cs : List String, firstExisting env cs = cs.find? env.pathExists := by
  intro cs
  induction cs with
  | nil => rfl
  | cons c cs ih =>
    cases hc : env.pathExists c <;> simp [firstExisting, List.find?, hc, ih]

/-- C6: with no theme-lookup hit and a theme-path hint present, the
resolver probes exactly the six candidate paths of §4.1 in their fixed
order and continues with the first one that exists on disk. -/
theorem lookup_icon_probe_order :
    (∀ tp name : String, candidates tp name =
      [ tp ++ "/" ++ name ++ ".svg"
      , tp ++ "/" ++ name ++ ".png"
      , tp ++ "/hicolor/scalable/apps/" ++ name ++ ".svg"
      , tp ++ "/hicolor/256x256/apps/" ++ name ++ ".png"
      , tp ++ "/hicolor/128x128/apps/" ++ name ++ ".png"
      , tp ++ "/hicolor/64x64/apps/" ++ name ++ ".png" ]) ∧
    (∀ (env : FsEnv) (name tp : String), env.themeLookup name = none →
      lookup_icon env name (some tp)
        = ((candidates tp name).find? env.pathExists).bind (load_icon_file env)) := by
  constructor
  · intro tp name; rfl
  · intro env name tp h
    rw [lookup_icon]
    simp only [h, firstExisting_eq_find]
    cases hfind : (candidates tp name).find? env.pathExists <;> simp [hfind]

/-- Witness for C6 at a concrete name and hint with an all-missing
filesystem. -/
theorem lookup_icon_probe_order_witness :
    envNoFs.themeLookup "foo" = none ∧
    lookup_icon envNoFs "foo" (some "/t")
      = ((candidates "/t" "foo").find? envNoFs.pathExists).bind (load_icon_file envNoFs) :=
  ⟨rfl, lookup_icon_probe_order.2 envNoFs "foo" "/t" rfl⟩

/-- A one-entry catalog holding address "a" with a set hover flag. -/
def catOne : Catalog :=
  fun a => if a = "a" then some { icon := none, hovered := true } else none

/-- C9: processing the same Add event twice for an address yields the
same catalog entry as processing it once, and an Add or Update on an
address already present preserves that entry's hover flag. -/
theorem add_idempotent_hover_preserved (env : FsEnv) (cat : Catalog)
    (address : String) (icon : IconData) :
    (update env (update env cat (TrayEvent.Add address icon)) (TrayEvent.Add address icon)) address
      = (update env cat (TrayEvent.Add address icon)) address ∧
    (∀ prior, cat address = some prior →
      ((update env cat (TrayEvent.Add address icon)) address
          = some { icon := resolve_icon env icon, hovered := prior.hovered } ∧
       (update env cat (TrayEvent.Update address icon)) address
          = some { icon := resolve_icon env icon, hovered := prior.hovered })) := by
  constructor
  · simp [update, insertResolved]
  · intro prior hp
    constructor <;> simp [update, insertResolved, hp]

/-- Witness for C9: hover preservation at a concrete one-entry catalog. -/
theorem add_idempotent_hover_preserved_witness :
    catOne "a" = some { icon := none, hovered := true } ∧
    (update envNoFs catOne (TrayEvent.Add "a" { pixmap := none, icon_name := none, icon_theme_path := none })) "a"
      = some { icon := resolve_icon envNoFs { pixmap := none, icon_name := none, icon_theme_path := none }
             , hovered := true } :=
  ⟨rfl,
   ((add_idempotent_hover_preserved envNoFs catOne "a"
      { pixmap := none, icon_name := none, icon_theme_path := none }).2
      { icon := none, hovered := true } rfl).1⟩

/-- The empty catalog. -/
def catEmpty : Catalog := fun _ => none

/-- C10: an Update event for an address not in the catalog behaves
exactly like an Add event: it creates a fresh entry with hover flag
`false` and is never ignored. -/
theorem update_unknown_address_adds (env : FsEnv) (cat : Catalog)
    (address : String) (icon : IconData) (h : cat address = none) :
    (∀ a, (update env cat (TrayEvent.Update address icon)) a
        = (update env cat (TrayEvent.Add address icon)) a) ∧
    (update env cat (TrayEvent.Update address icon)) address
      = some { icon := resolve_icon env icon, hovered := false } := by
  constructor
  · intro a; simp [update]
  · simp [update, insertResolved, h]

/-- Witness for C10 at the empty catalog. -/
theorem update_unknown_address_adds_witness :
    catEmpty "a" = none ∧
    (update envNoFs catEmpty (TrayEvent.Update "a" { pixmap := none, icon_name := none, icon_theme_path := none })) "a"
      = some { icon := resolve_icon envNoFs { pixmap := none, icon_name := none, icon_theme_path := none }
             , hovered := false } :=
  ⟨rfl,
   (update_unknown_address_adds envNoFs catEmpty "a"
      { pixmap := none, icon_name := none, icon_theme_path := none } rfl).2⟩

/-- The fold underlying `maxByKeyLast`, starting from a seed element. -/
def maxFold (f : α → Nat) (x : α) (xs : List α) : α :=
  xs.foldl (fun best y => if f best ≤ f y then y else best) x

theorem maxByKeyLast_cons (f : α → Nat) (x : α) (xs : List α) :
    maxByKeyLast f (x :: xs) = some (maxFold f x xs) := rfl

theorem maxFold_spec (f : α → Nat) (x : α) :
    ∀ xs : List α,
      (∀ y ∈ x :: xs, f y ≤ f (maxFold f x xs)) ∧
      ((x :: xs).filter (fun y => f y == f (maxFold f x xs))).getLast?
        = some (maxFold f x xs) := by
  intro xs
  induction xs using List.reverseRecOn with
  | nil =>
    constructor
    · intro y hy
      simp only [List.mem_singleton] at hy
      subst hy
      exact le_refl _
    · simp [maxFold]
  | append_singleton ys z ih =>
    have hfold : maxFold f x (ys ++ [z])
        = if f (maxFold f x ys) ≤ f z then z else maxFold f x ys := by
      simp [maxFold, List.foldl_append]
    by_cases hle : f (maxFold f x ys) ≤ f z
    · rw [hfold, if_pos hle]
      constructor
      · intro y hy
        rcases List.mem_cons.mp hy with hy | hy
        · subst hy
          exact le_trans (ih.1 _ (List.mem_cons_self _ _)) hle
        · rcases List.mem_append.mp hy with hy | hy
          · exact le_trans (ih.1 _ (List.mem_cons_of_mem _ hy)) hle
          · simp only [List.mem_singleton] at hy
            subst hy
            exact le_refl _
      · have : (x :: (ys ++ [z])) = (x :: ys) ++ [z] := by simp
        rw [this, List.filter_append]
        simp [List.getLast?_concat]
    · rw [hfold, if_neg hle]
      push_neg at hle
      constructor
      · intro y hy
        rcases List.mem_cons.mp hy with hy | hy
        · subst hy
          exact ih.1 _ (List.mem_cons_self _ _)
        · rcases List.mem_append.mp hy with hy | hy
          · exact ih.1 _ (List.mem_cons_of_mem _ hy)
          · simp only [List.mem_singleton] at hy
            subst hy
            exact le_of_lt hle
      · have hsplit : (x :: (ys ++ [z])) = (x :: ys) ++ [z] := by simp
        have hz : (f z == f (maxFold f x ys)) = false := by
          simp only [beq_eq_false_iff_ne, ne_eq]
          exact fun hc => absurd (le_of_eq hc.symm) (not_le_of_lt hle)
        have hzf : List.filter (fun y => f y == f (maxFold f x ys)) [z] = [] := by
          simp [List.filter, hz]
        rw [hsplit, List.filter_append, hzf, List.append_nil]
        exact ih.2

/-- First pixmap used by the C1 counterexample: 1x1, all-zero pixel. -/
def pxA : IconPixmap := { width := 1, height := 1, pixels := [0, 0, 0, 0] }

/-- Second pixmap used by the C1 counterexample: 1x1, all-nine pixel,
tying `pxA` on `width * height`. -/
def pxB : IconPixmap := { width := 1, height := 1, pixels := [9, 9, 9, 9] }

/-- Counterexample to C1 as stated: `pxA` and `pxB` tie on
`width * height` and differ, yet `pixmap_to_handle` produces the raster
of the SECOND (last) entry, not the first — Rust's `max_by_key` keeps
the last maximal element on ties. -/
theorem pixmap_tie_first_counterexample :
    pxA.width * pxA.height = pxB.width * pxB.height ∧
    pxA ≠ pxB ∧
    pixmap_to_handle [pxA, pxB]
      = some { width := pxB.width, height := pxB.height, rgba := argbToRgba pxB.pixels } ∧
    pixmap_to_handle [pxA, pxB]
      ≠ some { width := pxA.width, height := pxA.height, rgba := argbToRgba pxA.pixels } := by
  refine ⟨rfl, by decide, rfl, by decide⟩

/-- C1 amended: for every non-empty pixmap list, `pixmap_to_handle`
selects an entry maximizing `width * height`, and when several entries
attain the maximum the LAST such entry in list order is chosen (its
converted buffer is the output). -/
theorem pixmap_selects_last_max (ps : List IconPixmap) (h : ps ≠ []) :
    ∃ p, maxByKeyLast (fun q => q.width * q.height) ps = some p ∧
      pixmap_to_handle ps
        = some { width := p.width, height := p.height, rgba := argbToRgba p.pixels } ∧
      (∀ q ∈ ps, q.width * q.height ≤ p.width * p.height) ∧
      (ps.filter (fun q => q.width * q.height == p.width * p.height)).getLast?
        = some p := by
  cases ps with
  | nil => exact absurd rfl h
  | cons x xs =>
    refine ⟨maxFold (fun q => q.width * q.height) x xs, rfl, rfl, ?_, ?_⟩
    · exact (maxFold_spec (fun q => q.width * q.height) x xs).1
    · exact (maxFold_spec (fun q => q.width * q.height) x xs).2

/-- Witness for the amended C1 at the concrete tying list. -/
theorem pixmap_selects_last_max_witness :
    ∃ p, maxByKeyLast (fun q => q.width * q.height) [pxA, pxB] = some p ∧
      pixmap_to_handle [pxA, pxB]
        = some { width := p.width, height := p.height, rgba := argbToRgba p.pixels } ∧
      (∀ q ∈ [pxA, pxB], q.width * q.height ≤ p.width * p.height) ∧
      (([pxA, pxB]).filter (fun q => q.width * q.height == p.width * p.height)).getLast?
        = some p :=
  pixmap_selects_last_max [pxA, pxB] (by decide)

/-- C3: from `SendingInitial initial 0`, the next `initial.length + 1`
steps emit exactly one Add event per snapshot entry, in snapshot order,
with no loss or duplication, followed by the single tick on which the
machine transitions to Connected. -/
theorem sendingInitial_trace (envs : Nat → StepEnv) (initial : List (String × IconData)) :
    runSteps envs (TrayState.SendingInitial initial 0) (initial.length + 1)
      = (initial.map (fun pr => TrayEvent.Add pr.1 pr.2) ++ [TrayEvent.Tick],
         TrayState.Connected) := by
  have key : ∀ (j i : Nat), i + j ≤ initial.length →
      runSteps envs (TrayState.SendingInitial initial i) j
        = (((initial.drop i).take j).map (fun pr => TrayEvent.Add pr.1 pr.2),
           TrayState.SendingInitial initial (i + j)) := by
    intro j
    induction j with
    | zero => intro i _; simp [runSteps]
    | succ j ih =>
      intro i hij
      have h1 : i + j ≤ initial.length := by omega
      have h2 : i + j < initial.length := by omega
      rw [runSteps, ih i h1]
      simp only [step, h2, dif_pos]
      rw [Prod.mk.injEq]
      refine ⟨?_, rfl⟩
      rw [List.take_succ]
      have hget : (initial.drop i)[j]? = some (initial.get ⟨i + j, h2⟩) := by
        rw [List.getElem?_drop]
        rw [List.getElem?_eq_getElem h2]
        simp
      rw [hget]
      simp
  have hmain := key initial.length 0 (by omega)
  rw [runSteps, hmain]
  simp [step]

end Vibebar
